import Mathlib

/-!
Shallow embedding of the GitWeb Smart-HTTP bridge (src/gitweb.py) and
verification of the frozen claims about it.

The embedding mirrors the Python source:
* `FileWrapper` (gitweb.py lines 33-51) — the bounded input reader;
* `GitRepository` — repository-marker validation (`git_folder_signature`,
  line 58), the `inforefs` GET handler (lines 71-100), the `backend` POST
  handler (lines 102-135) and the dispatching `__call__` (lines 137-156);
* `GitDirectory` — the router (`__init__` lines 163-174, `__call__`
  lines 182-208).

Python strings are Lean `String`s, byte streams are `List Nat`, the
filesystem and the process environment enter as explicit parameters
(directory listing, `os.path.realpath`, spawn success, subprocess output).
Side effects (hook invocations, `git init`, process spawns,
`update-server-info`) are recorded in an explicit effect list.
-/

namespace GitWeb

/-! ### Hexadecimal rendering, as produced by Python `hex(n)[2:]` -/

/-- One lowercase hexadecimal digit, as Python `hex` prints it. -/
def hexDigitChar (n : Nat) : Char :=
  if n < 10 then Char.ofNat (48 + n) else Char.ofNat (97 + (n - 10))

/-- Fuel-driven accumulator loop producing the digits of `n` in base 16,
most significant first, in front of `acc`. -/
def toHexAux : Nat → Nat → List Char → List Char
  | 0, _, acc => acc
  | fuel + 1, n, acc =>
    let acc2 := hexDigitChar (n % 16) :: acc
    if n < 16 then acc2 else toHexAux fuel (n / 16) acc2

/-- The digit list of Python `hex(n)[2:]` (lowercase, no leading zeros,
`"0"` for zero). -/
def toHexChars (n : Nat) : List Char := toHexAux (n + 1) n []

/-- Python `str.rjust(4, '0')` applied to the hex digits: the 4-character
zero-padded length field of the advertisement frame. -/
def hexPad4 (n : Nat) : List Char :=
  List.replicate (4 - (toHexChars n).length) '0' ++ toHexChars n

/-- Numeric value of one (lowercase) hexadecimal character. -/
def hexVal (c : Char) : Nat :=
  if 97 ≤ c.toNat then c.toNat - 87 else c.toNat - 48

/-- Decode a list of hexadecimal characters, most significant first. -/
def fromHexChars (l : List Char) : Nat :=
  l.foldl (fun acc c => 16 * acc + hexVal c) 0

/-! ### The pkt-line advertisement frame (gitweb.py lines 86-91) -/

/-- `'# service=%s' % git_command` (line 86). -/
def smartServerAdvert (git_command : String) : String :=
  "# service=" ++ git_command

/-- The pre-seeded first element of the `info/refs` response body
(line 91): `hex(len(payload)+4)[2:].rjust(4,'0') + payload + '0000'`.
Note the source deliberately emits no newline (comment at lines 80-85). -/
def infoRefsFrame (payload : String) : String :=
  String.mk (hexPad4 (payload.length + 4)) ++ payload ++ "0000"

/-- Modelled from the claim wording, for comparison with `infoRefsFrame`:
the 4-character hex of `length(payload)+5`, then the payload, then exactly
one newline, then the flush marker. -/
def claimedFrame (payload : String) : String :=
  String.mk (hexPad4 (payload.length + 5)) ++ payload ++ "\n" ++ "0000"

/-! ### Repository marker validation (gitweb.py lines 57-68) -/

/-- `git_folder_signature = set(['config', 'head', 'info', 'objects',
'refs'])` (line 58). -/
def git_folder_signature : List String :=
  ["config", "head", "info", "objects", "refs"]

/-- ASCII lowercase of one character, as Python `str.lower` acts on the
ASCII directory-entry names involved here. -/
def lowerChar (c : Char) : Char :=
  if 65 ≤ c.toNat ∧ c.toNat ≤ 90 then Char.ofNat (c.toNat + 32) else c

/-- `f.lower()` for a directory entry name. -/
def lowerStr (s : String) : String :=
  String.mk (s.data.map lowerChar)

/-- The `GitRepository.__init__` validity check (lines 66-67): the
signature intersected with the lowercased directory entries equals the
signature, i.e. every marker occurs among the lowercased entries. -/
def validGitListing (files : List String) : Bool :=
  git_folder_signature.all fun s => (files.map lowerStr).contains s

/-! ### FileWrapper, the bounded input reader (gitweb.py lines 33-51) -/

/-- State of a `FileWrapper`: the bytes still available from the wrapped
`wsgi.input` stream, and the `remain` counter. -/
structure FWState where
  stream : List Nat
  remain : Nat
deriving DecidableEq, Repr

/-- Result of one `FileWrapper.read` call: the value returned (`none`
models Python `None`), the successor state, and whether the underlying
stream was touched. -/
structure ReadOut where
  data : Option (List Nat)
  st : FWState
  fdCalled : Bool
deriving DecidableEq, Repr

/-- `FileWrapper.read(size)` (lines 39-51): if `size <= remain`, read
`size` bytes from the stream and decrement `remain` by `size`; otherwise,
if `remain` is nonzero, read the last `remain` bytes and zero it;
otherwise return `None` without touching the stream. -/
def fwRead (st : FWState) (size : Nat) : ReadOut :=
  if size ≤ st.remain then
    { data := some (st.stream.take size)
      st := { stream := st.stream.drop size, remain := st.remain - size }
      fdCalled := true }
  else if st.remain ≠ 0 then
    { data := some (st.stream.take st.remain)
      st := { stream := st.stream.drop st.remain, remain := 0 }
      fdCalled := true }
  else
    { data := none, st := st, fdCalled := false }

/-- Run a sequence of `read` requests against a `FileWrapper`, collecting
every byte handed to the consumer (the subprocess stdin pump). -/
def fwRun (st : FWState) : List Nat → List Nat × FWState
  | [] => ([], st)
  | s :: rest =>
    let r := fwRead st s
    let next := fwRun r.st rest
    ((r.data.getD []) ++ next.1, next.2)

/-! ### Kernel-computable string primitives: Python `startswith`,
`endswith`, `in` (substring) and `strip('/')` -/

/-- Does `needle` occur at the head of `hay`? -/
def charsBeginWith : List Char → List Char → Bool
  | [], _ => true
  | _ :: _, [] => false
  | a :: as, b :: bs => a == b && charsBeginWith as bs

/-- Python `s.startswith(pre)`. -/
def strStartsWith (s pre : String) : Bool :=
  charsBeginWith pre.data s.data

/-- Python `s.endswith(suf)`. -/
def strEndsWith (s suf : String) : Bool :=
  charsBeginWith suf.data.reverse s.data.reverse

/-- Substring occurrence over character lists. -/
def charsContain (needle : List Char) : List Char → Bool
  | [] => needle.isEmpty
  | c :: rest => charsBeginWith needle (c :: rest) || charsContain needle rest

/-- Python `needle in hay` on strings: substring containment. This is
the operator line 190 uses for the containment check. -/
def strContains (needle hay : String) : Bool :=
  charsContain needle.data hay.data

/-- Python `str.strip('/')`: drop `/` characters from both ends
(line 109). -/
def stripSlashes (s : String) : String :=
  String.mk (((s.data.dropWhile fun c => c = '/').reverse.dropWhile fun c => c = '/').reverse)

/-- `os.path.join` for a base directory and one path segment. -/
def joinPath (a b : String) : String :=
  if strEndsWith a "/" then a ++ b else a ++ "/" ++ b

/-! ### Responses, exceptions and recorded side effects -/

/-- The HTTP responses the bridge can produce. `ok` carries the
content type and the body bytes handed to the server runtime. -/
inductive Resp where
  | ok (contentType : String) (body : List Nat)
  | notFound
  | forbidden
  | methodNotAllowed
  | expectationFailed
  | internalServerError
deriving DecidableEq, Repr

/-- Python exceptions crossing a handler boundary: a webob HTTP
exception carrying a response, or any other exception (the `KeyError`
from a missing query parameter, an `AssertionError`, ...). -/
inductive PyExc where
  | httpExc (r : Resp)
  | other
deriving DecidableEq, Repr

/-- A handler either returns a response or raises an exception. -/
inductive Outcome where
  | returned (r : Resp)
  | raised (e : PyExc)
deriving DecidableEq, Repr

/-- A clone hook value held by a `GitDirectory`: the class-level no-op
default or a caller-supplied function (identified by a tag). -/
inductive Hook where
  | default
  | custom (tag : Nat)
deriving DecidableEq, Repr

/-- Observable side effects, in the order they happen: hook invocations,
`git init` (line 201), advertisement and service process spawns
(lines 89 and 120), and the `update-server-info` call (line 130) with
the exit status the shelled command would report. -/
inductive Effect where
  | hookRun (h : Hook)
  | gitInit (path : String)
  | spawnAdvertise (cmd path : String)
  | spawnService (cmd path : String)
  | updateServerInfo (code : Int)
deriving DecidableEq, Repr

/-! ### GitRepository handlers (gitweb.py lines 57-156) -/

/-- `commands = ['git-upload-pack', 'git-receive-pack']` (line 59). -/
def commands : List String := ["git-upload-pack", "git-receive-pack"]

/-- `valid_accepts = ['application/x-%s-result' % c for c in commands]`
(line 69). -/
def valid_accepts : List String :=
  commands.map fun c => "application/x-" ++ c ++ "-result"

/-- First value of a query parameter, `none` when absent (so that
`request.GET['service']` raises `KeyError`). -/
def lookupParam (params : List (String × String)) (k : String) : Option String :=
  match params with
  | [] => none
  | (k2, v) :: rest => if k2 = k then some v else lookupParam rest k

/-- Python 3 renders `b'%s' % s.encode('utf8')` as `b'...'`; line 133
interpolates a bytes object into the result content type. -/
def pyBytesRepr (s : String) : String :=
  "b" ++ String.mk [Char.ofNat 39] ++ s ++ String.mk [Char.ofNat 39]

/-- `GitRepository.inforefs` (lines 71-100). Inputs: the query
parameters, whether the environment can spawn the subprocess, and the
bytes the spawned process writes to stdout. A missing `service`
parameter raises `KeyError` (line 76); a non-whitelisted service returns
Method Not Allowed (lines 77-78); a spawn failure raises Expectation
Failed (lines 93-95); otherwise the response body is the advertisement
frame followed by the process output (lines 89-99). -/
def inforefsRun (content_path : String) (params : List (String × String))
    (spawnOk : Bool) (out : List Nat) : Outcome × List Effect :=
  match lookupParam params "service" with
  | none => (.raised .other, [])
  | some git_command =>
    if commands.contains git_command = false then
      (.returned .methodNotAllowed, [])
    else if spawnOk then
      (.returned (.ok ("application/x-" ++ git_command ++ "-advertisement")
          (((infoRefsFrame (smartServerAdvert git_command)).data.map Char.toNat) ++ out)),
        [.spawnAdvertise git_command content_path])
    else
      (.raised (.httpExc .expectationFailed), [])

/-- `GitRepository.backend` (lines 102-135). Inputs: the request path,
whether `CONTENT_LENGTH` was declared, spawn success, the exit status of
the `update-server-info` shell command, and the process stdout bytes.
A non-whitelisted trailing path segment returns Method Not Allowed
(lines 109-111); a spawn failure raises Expectation Failed
(lines 124-126); after a successful receive-pack spawn,
`update-server-info` is invoked and its exit status discarded
(lines 128-130); the response carries the process output (lines 132-135). -/
def backendRun (content_path pathInfo : String) (hasContentLength : Bool)
    (spawnOk : Bool) (updExit : Int) (out : List Nat) : Outcome × List Effect :=
  let git_command := stripSlashes pathInfo
  if commands.contains git_command = false then
    (.returned .methodNotAllowed, [])
  else if spawnOk then
    let eff :=
      if git_command = "git-receive-pack" then
        [Effect.spawnService git_command content_path, Effect.updateServerInfo updExit]
      else
        [Effect.spawnService git_command content_path]
    (.returned (.ok ("application/x-" ++ pyBytesRepr git_command ++ "-result") out), eff)
  else
    (.raised (.httpExc .expectationFailed), [])

/-- The `try`/`except` of `GitRepository.__call__` (lines 146-153): a
returned response and a raised HTTP exception are both emitted as-is;
any other exception becomes Internal Server Error. -/
def handleOutcome : Outcome × List Effect → Resp × List Effect
  | (.returned r, eff) => (r, eff)
  | (.raised (.httpExc r), eff) => (r, eff)
  | (.raised .other, eff) => (.internalServerError, eff)

/-- `GitRepository.__call__` (lines 137-156): dispatch to `inforefs`
when the path starts with `/info/refs`, to `backend` when the Accept
header offers one of `valid_accepts`; with neither, the local `app` is
unbound and calling it raises, which the catch-all turns into Internal
Server Error. -/
def repoCall (content_path pathInfo : String) (params : List (String × String))
    (accept : List String) (hasContentLength : Bool) (spawnOk : Bool)
    (updExit : Int) (out : List Nat) : Resp × List Effect :=
  if strStartsWith pathInfo "/info/refs" then
    handleOutcome (inforefsRun content_path params spawnOk out)
  else if valid_accepts.any (fun a => accept.contains a) then
    handleOutcome (backendRun content_path pathInfo hasContentLength spawnOk updExit out)
  else
    (.internalServerError, [])

/-! ### GitDirectory, the router (gitweb.py lines 159-208) -/

/-- The keyword handling of `GitDirectory.__init__` (lines 171-174):
a `pre_clone_hook` keyword is stored as the pre-clone hook, and a
`post_clone_hook` keyword is then ALSO stored into `pre_clone_hook`
(line 174 assigns `self.pre_clone_hook`); the post-clone hook attribute
is never overridden, so it stays the class-level no-op. Returns the
(pre, post) hook pair the instance ends up with. -/
def gitDirectoryHooks (preKw postKw : Option Hook) : Hook × Hook :=
  let pre1 := match preKw with | some h => h | none => Hook.default
  let pre2 := match postKw with | some h => h | none => pre1
  (pre2, Hook.default)

/-- The containment the spec asks for: the resolved path lies strictly
below the content root (string-prefix containment after
canonicalization). -/
def isDescendant (p base : String) : Bool :=
  strStartsWith p (base ++ "/")

/-- What routing produced: a response, a delegation to a
`GitRepository` WSGI app for the resolved path, or an uncaught
exception propagating out of `__call__`. -/
inductive RouteResult where
  | resp (r : Resp)
  | delegate (content_path : String)
  | crashed
deriving DecidableEq, Repr

/-- `GitDirectory.__call__` (lines 182-208). Inputs: the configured
base path, `os.path.realpath` as an abstract canonicalization function
(it resolves `..` and symlinks against the real filesystem), the
`auto_create` flag, the instance's two hooks, the popped leading path
segment, the Accept header values, the directory listing of the
resolved path (`none` when `os.listdir` raises `OSError` because the
directory does not exist), and whether the listing after `git init`
validates as a repository.

Mirrors the source: reject names not ending in `.git` (lines 187-188);
reject with Forbidden when the base path does not occur as a substring
of the resolved path (lines 189-191); construct `GitRepository` — on
success delegate to it; on failure, an existing directory makes the
code construct `GitRepository` again, which raises the same
`AssertionError`, uncaught (lines 195-196); a missing directory with
auto-create enabled and a push Accept runs the pre hook, `git init`,
the post hook, then delegates (lines 198-205); otherwise Not Found
(line 207). -/
def gitDirCall (basePath : String) (realpath : String → String)
    (autoCreate : Bool) (preHook postHook : Hook) (repoName : String)
    (accept : List String) (listing : Option (List String))
    (validAfterInit : Bool) : RouteResult × List Effect :=
  if strEndsWith repoName ".git" = false then (.resp .notFound, [])
  else
    let content_path := realpath (joinPath basePath repoName)
    if strContains basePath content_path = false then (.resp .forbidden, [])
    else
      match listing with
      | some files =>
        if validGitListing files then (.delegate content_path, [])
        else (.crashed, [])
      | none =>
        if autoCreate && accept.contains "application/x-git-receive-pack-result" then
          if validAfterInit then
            (.delegate content_path,
              [.hookRun preHook, .gitInit content_path, .hookRun postHook])
          else
            (.crashed, [.hookRun preHook, .gitInit content_path, .hookRun postHook])
        else (.resp .notFound, [])

/-- A concrete `os.path.realpath` for a filesystem in which
`/srv/evil.git` is a symbolic link pointing at `/tmp/srv/evil.git`:
canonicalization maps that one path to its target and leaves every other
path unchanged. -/
def symlinkRealpath : String → String :=
  fun s => if s = "/srv/evil.git" then "/tmp/srv/evil.git" else s

/-! ### Lemmas about the hexadecimal length field -/

theorem foldl_hex_shift (l : List Char) (i : Nat) :
    l.foldl (fun acc c => 16 * acc + hexVal c) i = i * 16 ^ l.length + fromHexChars l := by
  induction l generalizing i with
  | nil => simp [fromHexChars]
  | cons c rest ih =>
    show List.foldl _ (16 * i + hexVal c) rest = _
    rw [ih (16 * i + hexVal c)]
    have hc : fromHexChars (c :: rest) = hexVal c * 16 ^ rest.length + fromHexChars rest := by
      show List.foldl _ (16 * 0 + hexVal c) rest = _
      rw [ih (16 * 0 + hexVal c)]
      ring
    rw [hc, List.length_cons, pow_succ]
    ring

theorem fromHexChars_cons (c : Char) (l : List Char) :
    fromHexChars (c :: l) = hexVal c * 16 ^ l.length + fromHexChars l := by
  show List.foldl _ (16 * 0 + hexVal c) l = _
  rw [foldl_hex_shift]
  ring

theorem hexVal_hexDigitChar (m : Nat) (h : m < 16) : hexVal (hexDigitChar m) = m := by
  interval_cases m <;> decide

theorem fromHex_toHexAux (fuel : Nat) : ∀ n acc, n < fuel →
    fromHexChars (toHexAux fuel n acc) = n * 16 ^ acc.length + fromHexChars acc := by
  induction fuel with
  | zero => intro n acc h; omega
  | succ fuel ih =>
    intro n acc h
    rw [toHexAux]
    by_cases h16 : n < 16
    · simp only [h16, if_true]
      rw [fromHexChars_cons, hexVal_hexDigitChar (n % 16) (Nat.mod_lt _ (by omega)),
        Nat.mod_eq_of_lt h16]
    · simp only [h16, if_false]
      have hdiv : n / 16 < fuel := by
        have h1 : n / 16 < n := Nat.div_lt_self (by omega) (by omega)
        omega
      rw [ih (n / 16) (hexDigitChar (n % 16) :: acc) hdiv]
      rw [fromHexChars_cons, hexVal_hexDigitChar (n % 16) (Nat.mod_lt _ (by omega)),
        List.length_cons]
      have hnm : 16 * (n / 16) + n % 16 = n := Nat.div_add_mod n 16
      conv_rhs => rw [← hnm]
      ring

theorem fromHex_toHexChars (n : Nat) : fromHexChars (toHexChars n) = n := by
  have h := fromHex_toHexAux (n + 1) n [] (by omega)
  simpa [fromHexChars] using h

theorem fromHex_replicate_zero (k : Nat) (l : List Char) :
    fromHexChars (List.replicate k '0' ++ l) = fromHexChars l := by
  induction k with
  | zero => simp
  | succ k ih =>
    rw [List.replicate_succ, List.cons_append, fromHexChars_cons]
    have hz : hexVal '0' = 0 := by decide
    rw [hz, ih]
    ring

theorem fromHex_hexPad4 (n : Nat) : fromHexChars (hexPad4 n) = n := by
  rw [hexPad4, fromHex_replicate_zero, fromHex_toHexChars]

theorem toHexAux_length (fuel : Nat) : ∀ n acc k, n < fuel → n < 16 ^ k → 1 ≤ k →
    (toHexAux fuel n acc).length ≤ k + acc.length := by
  induction fuel with
  | zero => intro n acc k h; omega
  | succ fuel ih =>
    intro n acc k h hk h1
    rw [toHexAux]
    by_cases h16 : n < 16
    · simp only [h16, if_true, List.length_cons]
      omega
    · simp only [h16, if_false]
      have hk2 : 2 ≤ k := by
        by_contra hcon
        have : k = 1 := by omega
        subst this
        simp at hk
        omega
      have hdiv : n / 16 < fuel := by
        have h2 : n / 16 < n := Nat.div_lt_self (by omega) (by omega)
        omega
      have hpow : n / 16 < 16 ^ (k - 1) := by
        have hsplit : (16 : Nat) ^ k = 16 ^ (k - 1) * 16 := by
          rw [← pow_succ]
          congr 1
          omega
        rw [hsplit] at hk
        omega
      have := ih (n / 16) (hexDigitChar (n % 16) :: acc) (k - 1) hdiv hpow (by omega)
      simp only [List.length_cons] at this
      omega

theorem toHexChars_length_le (n : Nat) (h : n < 65536) : (toHexChars n).length ≤ 4 := by
  have h4 : n < 16 ^ 4 := by
    have h16 : (16 : Nat) ^ 4 = 65536 := by norm_num
    omega
  have := toHexAux_length (n + 1) n [] 4 (by omega) h4 (by omega)
  simpa [toHexChars] using this

theorem hexPad4_length (n : Nat) (h : n < 65536) : (hexPad4 n).length = 4 := by
  have hle := toHexChars_length_le n h
  simp [hexPad4]
  omega

theorem infoRefsFrame_data (payload : String) :
    (infoRefsFrame payload).data
      = hexPad4 (payload.length + 4) ++ payload.data ++ ['0', '0', '0', '0'] := by
  cases payload with
  | mk l =>
    show (String.mk _ ++ String.mk l ++ "0000").data = _
    simp [String.data]

/-- Claim C2: corrected. The emitted frame is the 4-character zero-padded
lowercase hexadecimal of `length(payload) + 4` — the four length bytes
only, with NO newline counted — followed by the payload, followed
immediately (no newline byte) by the flush marker `0000`. The claim's
`length + 5` and its mandatory single newline do not match the source
(gitweb.py line 91 and the comment at lines 80-85). -/
theorem inforefs_frame_amended (payload : String) (h : payload.length + 4 < 65536) :
    fromHexChars ((infoRefsFrame payload).data.take 4) = payload.length + 4 ∧
    (infoRefsFrame payload).data.drop 4 = payload.data ++ ['0', '0', '0', '0'] := by
  have hlen := hexPad4_length (payload.length + 4) h
  have hdata := infoRefsFrame_data payload
  have htake :=
    List.take_left (hexPad4 (payload.length + 4)) (payload.data ++ ['0', '0', '0', '0'])
  have hdrop :=
    List.drop_left (hexPad4 (payload.length + 4)) (payload.data ++ ['0', '0', '0', '0'])
  rw [hlen] at htake hdrop
  constructor
  · rw [hdata, List.append_assoc, htake, fromHex_hexPad4]
  · rw [hdata, List.append_assoc, hdrop]

/-- Witness for `inforefs_frame_amended` at the advertisement payload of
`git-upload-pack`. -/
theorem inforefs_frame_amended_witness :
    ("# service=git-upload-pack".length + 4 < 65536) ∧
    (fromHexChars ((infoRefsFrame "# service=git-upload-pack").data.take 4)
        = "# service=git-upload-pack".length + 4 ∧
      (infoRefsFrame "# service=git-upload-pack").data.drop 4
        = "# service=git-upload-pack".data ++ ['0', '0', '0', '0']) :=
  ⟨by decide, inforefs_frame_amended "# service=git-upload-pack" (by decide)⟩

/-- Claim C2 as stated is false at the advertisement payload
`"# service=git-upload-pack"`: the emitted frame differs from the claimed
frame (length field `length+5`, payload, one newline, `0000`); its length
field decodes to 29 = length+4, not 30 = length+5, and the frame contains
no newline byte at all. -/
theorem inforefs_frame_counterexample :
    infoRefsFrame (smartServerAdvert "git-upload-pack")
        ≠ claimedFrame (smartServerAdvert "git-upload-pack") ∧
    fromHexChars ((infoRefsFrame (smartServerAdvert "git-upload-pack")).data.take 4) = 29 ∧
    (smartServerAdvert "git-upload-pack").length + 5 = 30 ∧
    strContains "\n" (infoRefsFrame (smartServerAdvert "git-upload-pack")) = false := by
  refine ⟨by decide, by decide, by decide, by decide⟩

/-! ### Claim C4: repository marker validation -/

/-- Claim C4 as stated is false: a directory whose entries are exactly the
four claimed markers (a config file, HEAD, an objects directory and a refs
directory) is REJECTED by `GitRepository.__init__`, because the source's
signature (line 58) additionally demands an `info` entry; the listing
shown here contains all four claimed markers case-insensitively and still
fails validation. -/
theorem repository_signature_counterexample :
    validGitListing ["config", "HEAD", "objects", "refs"] = false ∧
    (∀ s ∈ ["config", "head", "objects", "refs"],
      ∃ f ∈ ["config", "HEAD", "objects", "refs"], lowerStr f = s) := by
  refine ⟨by decide, by decide⟩

/-- Claim C4: corrected. A directory is accepted exactly when its
lowercased entry names include all FIVE markers of the source signature:
`config`, `head`, `info`, `objects` and `refs` (gitweb.py line 58); the
claimed four-marker set omits `info`. -/
theorem repository_signature_amended (files : List String) :
    validGitListing files = true ↔
      ∀ s ∈ git_folder_signature, ∃ f ∈ files, lowerStr f = s := by
  simp only [validGitListing, List.all_eq_true, List.contains_iff_exists_mem_beq,
    List.mem_map, beq_iff_eq]
  constructor
  · intro h s hs
    rcases h s hs with ⟨f2, ⟨f, hf, hlow⟩, heq⟩
    exact ⟨f, hf, by rw [hlow, heq]⟩
  · intro h s hs
    rcases h s hs with ⟨f, hf, hlow⟩
    exact ⟨lowerStr f, ⟨f, hf, rfl⟩, by rw [hlow]⟩

/-- Witness for `repository_signature_amended` on a five-marker listing
with mixed case. -/
theorem repository_signature_amended_witness :
    validGitListing ["Config", "HEAD", "Info", "objects", "refs"] = true :=
  (repository_signature_amended ["Config", "HEAD", "Info", "objects", "refs"]).mpr
    (by decide)

/-! ### Claim C3: command whitelist -/

/-- Claim C3: for any service or command value outside the whitelist,
`inforefs` (for the `service` query value) and `backend` (for the POST
path's trailing segment) both return Method Not Allowed with an empty
effect list — no process is spawned. -/
theorem whitelist_rejects_unknown (cp cmd pathInfo : String)
    (params : List (String × String)) (hasCL spawnOk : Bool) (e : Int) (out : List Nat)
    (hparam : lookupParam params "service" = some cmd)
    (h1 : commands.contains cmd = false)
    (h2 : commands.contains (stripSlashes pathInfo) = false) :
    inforefsRun cp params spawnOk out = (.returned .methodNotAllowed, []) ∧
    backendRun cp pathInfo hasCL spawnOk e out = (.returned .methodNotAllowed, []) := by
  have h1m : cmd ∉ commands := by simpa using h1
  have h2m : stripSlashes pathInfo ∉ commands := by simpa using h2
  constructor
  · simp [inforefsRun, hparam, h1m]
  · simp [backendRun, h2m]

/-- Witness for `whitelist_rejects_unknown` with the non-whitelisted
value `git-evil` on both endpoints. -/
theorem whitelist_rejects_unknown_witness :
    lookupParam [("service", "git-evil")] "service" = some "git-evil" ∧
    commands.contains "git-evil" = false ∧
    commands.contains (stripSlashes "/git-evil") = false ∧
    (inforefsRun "/srv/repo.git" [("service", "git-evil")] true []
        = (.returned .methodNotAllowed, []) ∧
      backendRun "/srv/repo.git" "/git-evil" true true 0 []
        = (.returned .methodNotAllowed, [])) :=
  ⟨by decide, by decide, by decide,
    whitelist_rejects_unknown "/srv/repo.git" "git-evil" "/git-evil"
      [("service", "git-evil")] true true 0 [] (by decide) (by decide) (by decide)⟩

/-! ### Claim C8: GET info/refs without a service parameter -/

/-- Claim C8 as stated is false: a GET on the `info/refs` path with no
`service` query parameter at all yields Internal Server Error, not
Method Not Allowed — `request.GET['service']` (line 76) raises
`KeyError`, which the catch-all at lines 151-153 maps to 500. -/
theorem missing_service_counterexample :
    (repoCall "/srv/repo.git" "/info/refs" [] [] true true 0 []).1
        = .internalServerError ∧
    (repoCall "/srv/repo.git" "/info/refs" [] [] true true 0 []).1
        ≠ .methodNotAllowed := by
  refine ⟨by decide, by decide⟩

/-- Claim C8: corrected. A GET on the info/refs path with no `service`
query parameter fails with Internal Server Error (the missing-key lookup
raises, and the dispatcher's catch-all maps any non-HTTP exception to
500); the absence of the parameter is NOT treated like a non-whitelisted
value, which would give Method Not Allowed. No process is spawned either
way. -/
theorem missing_service_amended (cp pathInfo : String)
    (params : List (String × String)) (accept : List String)
    (hasCL spawnOk : Bool) (e : Int) (out : List Nat)
    (hpath : strStartsWith pathInfo "/info/refs" = true)
    (hparam : lookupParam params "service" = none) :
    repoCall cp pathInfo params accept hasCL spawnOk e out
      = (.internalServerError, []) := by
  simp [repoCall, hpath, inforefsRun, hparam, handleOutcome]

/-- Witness for `missing_service_amended` on a parameterless GET. -/
theorem missing_service_amended_witness :
    strStartsWith "/info/refs" "/info/refs" = true ∧
    lookupParam ([] : List (String × String)) "service" = none ∧
    repoCall "/srv/repo.git" "/info/refs" [] [] true true 0 []
      = (.internalServerError, []) :=
  ⟨by decide, by decide,
    missing_service_amended "/srv/repo.git" "/info/refs" [] [] true true 0 []
      (by decide) (by decide)⟩

/-! ### Claim C7: spawn failure maps to Expectation Failed -/

/-- Claim C7: when the git executable cannot be started, both endpoints
respond with Expectation Failed (417): `inforefs` via lines 93-95 and
`backend` via lines 124-126, the raised `HTTPExpectationFailed` being
emitted by the dispatcher's HTTP-exception arm. When the spawn succeeds,
the response is 200 with the process output as body, whatever that
output is — a runtime failure of a started process only shows in the
stream. -/
theorem spawn_failure_expectation_failed (cp cmd pathInfo : String)
    (params : List (String × String)) (accept : List String)
    (hasCL : Bool) (e : Int) (out out2 : List Nat)
    (hcmd : commands.contains cmd = true)
    (hparam : lookupParam params "service" = some cmd)
    (hpath1 : strStartsWith pathInfo "/info/refs" = false)
    (hpath2 : stripSlashes pathInfo = cmd)
    (haccept : valid_accepts.any (fun a => accept.contains a) = true) :
    repoCall cp "/info/refs" params accept hasCL false e out
        = (.expectationFailed, []) ∧
    repoCall cp pathInfo params accept hasCL false e out
        = (.expectationFailed, []) ∧
    (repoCall cp pathInfo params accept hasCL true e out2).1
        = .ok ("application/x-" ++ pyBytesRepr cmd ++ "-result") out2 := by
  have hself : strStartsWith "/info/refs" "/info/refs" = true := by decide
  have hcmdm : cmd ∈ commands := by simpa using hcmd
  have hacceptm : ∃ x ∈ valid_accepts, x ∈ accept := by simpa using haccept
  refine ⟨?_, ?_, ?_⟩
  · simp [repoCall, hself, inforefsRun, hparam, hcmdm, handleOutcome]
  · simp [repoCall, hpath1, hacceptm, backendRun, hpath2, hcmdm, handleOutcome]
  · by_cases hr : cmd = "git-receive-pack"
    · subst hr
      simp [repoCall, hpath1, hacceptm, backendRun, hpath2, hcmdm, handleOutcome]
    · simp [repoCall, hpath1, hacceptm, backendRun, hpath2, hcmdm, hr, handleOutcome]

/-- Witness for `spawn_failure_expectation_failed` on `git-upload-pack`. -/
theorem spawn_failure_expectation_failed_witness :
    commands.contains "git-upload-pack" = true ∧
    lookupParam [("service", "git-upload-pack")] "service" = some "git-upload-pack" ∧
    strStartsWith "/git-upload-pack" "/info/refs" = false ∧
    stripSlashes "/git-upload-pack" = "git-upload-pack" ∧
    valid_accepts.any
        (fun a => ["application/x-git-upload-pack-result"].contains a) = true ∧
    (repoCall "/srv/repo.git" "/info/refs" [("service", "git-upload-pack")]
          ["application/x-git-upload-pack-result"] true false 0 []
        = (.expectationFailed, []) ∧
      repoCall "/srv/repo.git" "/git-upload-pack" [("service", "git-upload-pack")]
          ["application/x-git-upload-pack-result"] true false 0 []
        = (.expectationFailed, []) ∧
      (repoCall "/srv/repo.git" "/git-upload-pack" [("service", "git-upload-pack")]
            ["application/x-git-upload-pack-result"] true true 0 [9]).1
        = .ok ("application/x-" ++ pyBytesRepr "git-upload-pack" ++ "-result") [9]) :=
  ⟨by decide, by decide, by decide, by decide, by decide,
    spawn_failure_expectation_failed "/srv/repo.git" "git-upload-pack" "/git-upload-pack"
      [("service", "git-upload-pack")] ["application/x-git-upload-pack-result"]
      true 0 [] [9] (by decide) (by decide) (by decide) (by decide) (by decide)⟩

/-! ### Claim C1: path containment -/

/-- Claim C1 exhibits a code bug. The router checks containment with the
Python substring operator (`self.content_path not in content_path`,
line 190), not with canonical-prefix (descendant) containment. With
content root `/srv` and request segment `evil.git`, where
`/srv/evil.git` is a symbolic link whose canonical resolution
(`os.path.realpath`) is `/tmp/srv/evil.git`: the resolved path is NOT a
descendant of `/srv`, yet `/srv` occurs in it as a substring, so the
router does not return Forbidden — with auto-create enabled and a push
Accept header it even runs `git init` at the escaped path, a filesystem
mutation outside the content root. -/
theorem path_containment_code_bug :
    isDescendant (symlinkRealpath (joinPath "/srv" "evil.git")) "/srv" = false ∧
    gitDirCall "/srv" symlinkRealpath true .default .default "evil.git"
        ["application/x-git-receive-pack-result"] none true
      = (.delegate "/tmp/srv/evil.git",
          [.hookRun .default, .gitInit "/tmp/srv/evil.git", .hookRun .default]) ∧
    (gitDirCall "/srv" symlinkRealpath true .default .default "evil.git"
        ["application/x-git-receive-pack-result"] none true).1 ≠ .resp .forbidden ∧
    Effect.gitInit "/tmp/srv/evil.git"
      ∈ (gitDirCall "/srv" symlinkRealpath true .default .default "evil.git"
          ["application/x-git-receive-pack-result"] none true).2 := by
  refine ⟨by decide, by decide, by decide, by decide⟩

/-! ### Claim C5: auto-create routing -/

/-- Claim C5: for a request resolving to a path that is neither a valid
repository nor an existing directory (the listing is absent), if
auto-create is on and the Accept header carries the receive-pack result
type, the router runs the pre-create hook, `git init`, and the
post-create hook, in that order, and delegates to the repository app;
otherwise it returns Not Found with no effects at all. -/
theorem auto_create_routing (base : String) (rp : String → String) (pre post : Hook)
    (name : String) (accept : List String) (autoCreate : Bool)
    (h1 : strEndsWith name ".git" = true)
    (h2 : strContains base (rp (joinPath base name)) = true) :
    (autoCreate = true → accept.contains "application/x-git-receive-pack-result" = true →
      gitDirCall base rp autoCreate pre post name accept none true
        = (.delegate (rp (joinPath base name)),
            [.hookRun pre, .gitInit (rp (joinPath base name)), .hookRun post])) ∧
    (autoCreate = false ∨ accept.contains "application/x-git-receive-pack-result" = false →
      ∀ vAfter, gitDirCall base rp autoCreate pre post name accept none vAfter
        = (.resp .notFound, [])) := by
  constructor
  · intro ha hac
    have hacm : "application/x-git-receive-pack-result" ∈ accept := by simpa using hac
    simp [gitDirCall, h1, h2, ha, hacm]
  · intro hcase vAfter
    rcases hcase with hf | hf
    · simp [gitDirCall, h1, h2, hf]
    · have hfm : "application/x-git-receive-pack-result" ∉ accept := by simpa using hf
      simp [gitDirCall, h1, h2, hfm]

/-- Witness for `auto_create_routing`: a push to a missing `new.git`
with auto-create on initializes it and proceeds. -/
theorem auto_create_routing_witness :
    strEndsWith "new.git" ".git" = true ∧
    strContains "/srv" ((fun s => s) (joinPath "/srv" "new.git")) = true ∧
    ((true = true → ["application/x-git-receive-pack-result"].contains
          "application/x-git-receive-pack-result" = true →
      gitDirCall "/srv" (fun s => s) true .default .default "new.git"
          ["application/x-git-receive-pack-result"] none true
        = (.delegate ((fun s => s) (joinPath "/srv" "new.git")),
            [.hookRun .default, .gitInit ((fun s => s) (joinPath "/srv" "new.git")),
              .hookRun .default])) ∧
    (true = false ∨ ["application/x-git-receive-pack-result"].contains
          "application/x-git-receive-pack-result" = false →
      ∀ vAfter, gitDirCall "/srv" (fun s => s) true .default .default "new.git"
          ["application/x-git-receive-pack-result"] none vAfter
        = (.resp .notFound, []))) :=
  ⟨by decide, by decide,
    auto_create_routing "/srv" (fun s => s) .default .default "new.git"
      ["application/x-git-receive-pack-result"] true (by decide) (by decide)⟩

/-! ### Claim C10: the post_clone_hook keyword is stored as the pre hook -/

/-- Claim C10: supplying a `post_clone_hook` keyword stores the supplied
function as the PRE-clone hook (line 174 assigns `self.pre_clone_hook`),
leaving the post-clone hook as the default no-op; consequently on an
auto-created repository the supplied function runs before `git init` and
the default no-op runs after it. -/
theorem post_clone_hook_stored_as_pre (preKw : Option Hook) (h : Hook)
    (base name : String) (rp : String → String) (accept : List String)
    (h1 : strEndsWith name ".git" = true)
    (h2 : strContains base (rp (joinPath base name)) = true)
    (h3 : accept.contains "application/x-git-receive-pack-result" = true) :
    (gitDirectoryHooks preKw (some h)).1 = h ∧
    (gitDirectoryHooks preKw (some h)).2 = Hook.default ∧
    (gitDirCall base rp true (gitDirectoryHooks preKw (some h)).1
        (gitDirectoryHooks preKw (some h)).2 name accept none true).2
      = [.hookRun h, .gitInit (rp (joinPath base name)), .hookRun Hook.default] := by
  have hpre : (gitDirectoryHooks preKw (some h)).1 = h := by cases preKw <;> rfl
  have hpost : (gitDirectoryHooks preKw (some h)).2 = Hook.default := by cases preKw <;> rfl
  have h3m : "application/x-git-receive-pack-result" ∈ accept := by simpa using h3
  refine ⟨hpre, hpost, ?_⟩
  rw [hpre, hpost]
  simp [gitDirCall, h1, h2, h3m]

/-- Witness for `post_clone_hook_stored_as_pre` with a supplied hook
(tag 7) and a competing `pre_clone_hook` keyword (tag 3). -/
theorem post_clone_hook_stored_as_pre_witness :
    strEndsWith "new.git" ".git" = true ∧
    strContains "/srv" ((fun s => s) (joinPath "/srv" "new.git")) = true ∧
    (["application/x-git-receive-pack-result"].contains
        "application/x-git-receive-pack-result" = true) ∧
    ((gitDirectoryHooks (some (Hook.custom 3)) (some (Hook.custom 7))).1 = Hook.custom 7 ∧
      (gitDirectoryHooks (some (Hook.custom 3)) (some (Hook.custom 7))).2 = Hook.default ∧
      (gitDirCall "/srv" (fun s => s) true
          (gitDirectoryHooks (some (Hook.custom 3)) (some (Hook.custom 7))).1
          (gitDirectoryHooks (some (Hook.custom 3)) (some (Hook.custom 7))).2 "new.git"
          ["application/x-git-receive-pack-result"] none true).2
        = [.hookRun (Hook.custom 7), .gitInit ((fun s => s) (joinPath "/srv" "new.git")),
            .hookRun Hook.default]) :=
  ⟨by decide, by decide, by decide,
    post_clone_hook_stored_as_pre (some (Hook.custom 3)) (Hook.custom 7) "/srv" "new.git"
      (fun s => s) ["application/x-git-receive-pack-result"]
      (by decide) (by decide) (by decide)⟩

/-! ### Claim C9: update-server-info is best-effort -/

/-- Claim C9: after a receive-pack service launches successfully, the
handler runs `update-server-info` (the effect list records it after the
service spawn), and the exit status of that secondary command has no
influence on the response — status, content type and body are determined
by the push service alone. The effect can only ever occur for a
successfully spawned receive-pack. -/
theorem update_server_info_best_effort (cp pathInfo p : String) (hasCL sOk : Bool)
    (e1 e2 e0 : Int) (out : List Nat)
    (hp : stripSlashes pathInfo = "git-receive-pack") :
    backendRun cp pathInfo hasCL true e1 out
      = (.returned (.ok ("application/x-" ++ pyBytesRepr "git-receive-pack" ++ "-result") out),
          [.spawnService "git-receive-pack" cp, .updateServerInfo e1]) ∧
    (backendRun cp pathInfo hasCL true e1 out).1
      = (backendRun cp pathInfo hasCL true e2 out).1 ∧
    (Effect.updateServerInfo e0 ∈ (backendRun cp p hasCL sOk e0 out).2 →
      sOk = true ∧ stripSlashes p = "git-receive-pack") := by
  have hrc : "git-receive-pack" ∈ commands := by decide
  refine ⟨?_, ?_, ?_⟩
  · simp [backendRun, hp, hrc]
  · simp [backendRun, hp, hrc]
  · intro hmem
    by_cases hc : stripSlashes p ∈ commands
    · cases sOk with
      | false => simp [backendRun, hc] at hmem
      | true =>
        by_cases hr : stripSlashes p = "git-receive-pack"
        · exact ⟨rfl, hr⟩
        · simp [backendRun, hc, hr] at hmem
    · simp [backendRun, hc] at hmem

/-- Witness for `update_server_info_best_effort`: a receive-pack POST
whose `update-server-info` exits with status 1 still yields the push's
own response. -/
theorem update_server_info_best_effort_witness :
    stripSlashes "/git-receive-pack" = "git-receive-pack" ∧
    (backendRun "/srv/repo.git" "/git-receive-pack" true true 1 [5]
        = (.returned (.ok ("application/x-" ++ pyBytesRepr "git-receive-pack" ++ "-result") [5]),
            [.spawnService "git-receive-pack" "/srv/repo.git", .updateServerInfo 1]) ∧
      (backendRun "/srv/repo.git" "/git-receive-pack" true true 1 [5]).1
        = (backendRun "/srv/repo.git" "/git-receive-pack" true true 0 [5]).1 ∧
      (Effect.updateServerInfo 1
          ∈ (backendRun "/srv/repo.git" "/git-receive-pack" true true 1 [5]).2 →
        true = true ∧ stripSlashes "/git-receive-pack" = "git-receive-pack")) :=
  ⟨by decide,
    update_server_info_best_effort "/srv/repo.git" "/git-receive-pack" "/git-receive-pack"
      true true 1 0 1 [5] (by decide)⟩

/-! ### Claim C6: the bounded input reader -/

theorem fwRun_spec (sizes : List Nat) : ∀ st : FWState, st.remain ≤ st.stream.length →
    (fwRun st sizes).1 = st.stream.take (min st.remain sizes.sum) ∧
    (fwRun st sizes).2.remain = st.remain - sizes.sum ∧
    (fwRun st sizes).2.stream = st.stream.drop (min st.remain sizes.sum) := by
  induction sizes with
  | nil => intro st h; simp [fwRun]
  | cons s rest ih =>
    intro st h
    by_cases hle : s ≤ st.remain
    · have hrd : fwRead st s =
          { data := some (st.stream.take s)
            st := { stream := st.stream.drop s, remain := st.remain - s }
            fdCalled := true } := by
        simp [fwRead, hle]
      have hinv : st.remain - s ≤ (st.stream.drop s).length := by
        simp [List.length_drop]
        omega
      obtain ⟨ih1, ih2, ih3⟩ := ih ⟨st.stream.drop s, st.remain - s⟩ hinv
      have hmin : min st.remain (s :: rest).sum = s + min (st.remain - s) rest.sum := by
        simp [List.sum_cons]
        omega
      refine ⟨?_, ?_, ?_⟩
      · show (fwRead st s).data.getD [] ++ (fwRun (fwRead st s).st rest).1 = _
        rw [hrd]
        simp only [Option.getD_some]
        rw [ih1, hmin, List.take_add]
      · show (fwRun (fwRead st s).st rest).2.remain = _
        rw [hrd]
        simp only []
        rw [ih2]
        simp [List.sum_cons]
        omega
      · show (fwRun (fwRead st s).st rest).2.stream = _
        rw [hrd]
        simp only []
        rw [ih3, hmin, List.drop_drop]
    · by_cases hz : st.remain = 0
      · have hs0 : s ≠ 0 := by omega
        have hrd : fwRead st s = { data := none, st := st, fdCalled := false } := by
          simp [fwRead, hz, Nat.le_zero, hs0]
        obtain ⟨ih1, ih2, ih3⟩ := ih st h
        refine ⟨?_, ?_, ?_⟩
        · show (fwRead st s).data.getD [] ++ (fwRun (fwRead st s).st rest).1 = _
          rw [hrd]
          simp only [Option.getD_none, List.nil_append]
          rw [ih1, hz]
          simp
        · show (fwRun (fwRead st s).st rest).2.remain = _
          rw [hrd, ih2, hz]
          simp [List.sum_cons]
        · show (fwRun (fwRead st s).st rest).2.stream = _
          rw [hrd, ih3, hz]
          simp
      · have hrd : fwRead st s =
            { data := some (st.stream.take st.remain)
              st := { stream := st.stream.drop st.remain, remain := 0 }
              fdCalled := true } := by
          simp [fwRead, hle, hz]
        have hinv : (0 : Nat) ≤ (st.stream.drop st.remain).length := Nat.zero_le _
        obtain ⟨ih1, ih2, ih3⟩ := ih ⟨st.stream.drop st.remain, 0⟩ hinv
        have hmin : min st.remain (s :: rest).sum = st.remain := by
          simp [List.sum_cons]
          omega
        refine ⟨?_, ?_, ?_⟩
        · show (fwRead st s).data.getD [] ++ (fwRun (fwRead st s).st rest).1 = _
          rw [hrd]
          simp only [Option.getD_some]
          rw [ih1, hmin]
          simp
        · show (fwRun (fwRead st s).st rest).2.remain = _
          rw [hrd]
          simp only []
          rw [ih2]
          simp [List.sum_cons]
          omega
        · show (fwRun (fwRead st s).st rest).2.stream = _
          rw [hrd]
          simp only []
          rw [ih3, hmin]
          simp

theorem fwRun_fields (sizes : List Nat) (stream : List Nat) (N : Nat)
    (h : N ≤ stream.length) :
    (fwRun ⟨stream, N⟩ sizes).1 = stream.take (min N sizes.sum) ∧
    (fwRun ⟨stream, N⟩ sizes).2.remain = N - sizes.sum ∧
    (fwRun ⟨stream, N⟩ sizes).2.stream = stream.drop (min N sizes.sum) :=
  fwRun_spec sizes ⟨stream, N⟩ h

/-- Claim C6: with `Content-Length = N` and an underlying stream holding
more than `N` bytes, the wrapper forwards exactly the first
`min N (total requested)` stream bytes — so never more than `N`, and
exactly `N` once the consumer has requested at least `N` — and once `N`
bytes are consumed, any further read of positive size returns
end-of-stream (`None`) without touching the underlying stream. -/
theorem bounded_input_reader (stream : List Nat) (N : Nat) (sizes : List Nat) (k : Nat)
    (hM : N < stream.length) (hk : 0 < k) :
    (fwRun ⟨stream, N⟩ sizes).1 = stream.take (min N sizes.sum) ∧
    (fwRun ⟨stream, N⟩ sizes).1.length = min N sizes.sum ∧
    (N ≤ sizes.sum → (fwRun ⟨stream, N⟩ sizes).1.length = N) ∧
    (N ≤ sizes.sum →
      (fwRead (fwRun ⟨stream, N⟩ sizes).2 k).data = none ∧
      (fwRead (fwRun ⟨stream, N⟩ sizes).2 k).fdCalled = false) := by
  obtain ⟨h1, h2, h3⟩ := fwRun_fields sizes stream N (Nat.le_of_lt hM)
  have hlen : (fwRun ⟨stream, N⟩ sizes).1.length = min N sizes.sum := by
    rw [h1, List.length_take]
    omega
  refine ⟨h1, hlen, ?_, ?_⟩
  · intro hsum
    rw [hlen]
    omega
  · intro hsum
    have hzero : (fwRun ⟨stream, N⟩ sizes).2.remain = 0 := by
      rw [h2]
      omega
    have hknz : ¬ (k ≤ (fwRun ⟨stream, N⟩ sizes).2.remain) := by
      rw [hzero]
      omega
    have hk0 : k ≠ 0 := by omega
    constructor <;> simp [fwRead, hknz, hzero, hk0]

/-- Witness for `bounded_input_reader`: a 5-byte stream, content length
3, reads of sizes 2 and 2, then one more read of size 1. -/
theorem bounded_input_reader_witness :
    (3 < ([10, 20, 30, 40, 50] : List Nat).length) ∧ (0 < 1) ∧
    ((fwRun ⟨[10, 20, 30, 40, 50], 3⟩ [2, 2]).1
        = [10, 20, 30, 40, 50].take (min 3 ([2, 2] : List Nat).sum) ∧
      (fwRun ⟨[10, 20, 30, 40, 50], 3⟩ [2, 2]).1.length = min 3 ([2, 2] : List Nat).sum ∧
      (3 ≤ ([2, 2] : List Nat).sum → (fwRun ⟨[10, 20, 30, 40, 50], 3⟩ [2, 2]).1.length = 3) ∧
      (3 ≤ ([2, 2] : List Nat).sum →
        (fwRead (fwRun ⟨[10, 20, 30, 40, 50], 3⟩ [2, 2]).2 1).data = none ∧
        (fwRead (fwRun ⟨[10, 20, 30, 40, 50], 3⟩ [2, 2]).2 1).fdCalled = false)) :=
  ⟨by decide, by decide,
    bounded_input_reader [10, 20, 30, 40, 50] 3 [2, 2] 1 (by decide) (by decide)⟩

end GitWeb
